import Mathlib

/-!
# Structured-Response Extraction and Signal-Store pipeline — verification

Shallow embedding of the extraction and persistence logic of the two AI
sentiment clients (`src/ai/tools/perplexity/perplexity-client.ts`,
`src/ai/tools/gemini/gemini-client.ts`) and of the signal-file append logic
(`saveToFile` in `src/ai/tools/gemini/gemini-cli.ts` and the identical inline
handler of the perplexity CLI's `sentiment --output` command).

JavaScript dynamic values are modelled by the inductive `Jval`; the runtime
builtin `JSON.parse` is modelled by an executable fuel-based parser
(`jsonParse`); JavaScript exceptions (a failing `JSON.parse`, a member access
on `null`) are modelled with `Except Unit`, and the `try/catch` of the source
routes the error case into the fallback record.
-/

/-- A JSON number, exactly, as `mantissa × 10^exponent` (the clients do no
arithmetic on the numbers they extract — confidences such as `0.5` are only
stored and compared — so the exact decimal form is a faithful model and avoids
floating point). -/
structure JNum where
  mantissa : Int
  exponent : Int
deriving DecidableEq, Repr

/-- A JavaScript/JSON runtime value. -/
inductive Jval where
  | jnull
  | jbool (b : Bool)
  | jnum (n : JNum)
  | jstr (s : String)
  | jarr (elems : List Jval)
  | jobj (members : List (String × Jval))
deriving Repr

/-- The number `k` as a `Jval`. -/
def jint (k : Int) : Jval := .jnum ⟨k, 0⟩

/-- JavaScript truthiness: `null`, `false`, `0`, and `""` are falsy; every
object and array (empty ones included) is truthy. -/
def jtruthy : Jval → Bool
  | .jnull => false
  | .jbool b => b
  | .jnum n => n.mantissa ≠ 0
  | .jstr s => s ≠ ""
  | .jarr _ => true
  | .jobj _ => true

/-- `v || d` on an optional JavaScript value (`none` models `undefined`):
the value itself when truthy, otherwise the default. -/
def jsOr (v : Option Jval) (d : Jval) : Jval :=
  match v with
  | some x => if jtruthy x then x else d
  | none => d

/-- Property lookup in an object's member list. JavaScript object literals and
`JSON.parse` let a repeated key overwrite the earlier one, so the *last*
binding wins. -/
def lookupLast : List (String × Jval) → String → Option Jval
  | [], _ => none
  | (k, v) :: rest, key =>
    match lookupLast rest key with
    | some r => some r
    | none => if k = key then some v else none

/-- JavaScript member access `v.key`: throws (`.error`) on `null`, yields the
member on objects, and `undefined` (`none`) on every other value. -/
def jsMember : Jval → String → Except Unit (Option Jval)
  | .jnull, _ => .error ()
  | .jobj ms, key => .ok (lookupLast ms key)
  | _, _ => .ok none

/-! ## A model of the runtime builtin `JSON.parse` -/

/-- JSON insignificant whitespace (space, tab, line feed, carriage return). -/
def isJsonWs (c : Char) : Bool := [' ', '\t', '\n', '\r'].contains c

/-- Drop leading JSON whitespace. -/
def skipJsonWs (cs : List Char) : List Char := cs.dropWhile isJsonWs

/-- Strip an expected literal keyword tail (the `ull` of `null`, …). -/
def stripLit : List Char → List Char → Option (List Char)
  | [], rest => some rest
  | k :: ks, c :: rest => if c = k then stripLit ks rest else none
  | _ :: _, [] => none

/-- Decimal value of a digit list, most significant first. -/
def digitsVal (ds : List Char) : Nat :=
  ds.foldl (fun acc c => 10 * acc + (c.toNat - 48)) 0

/-- Value of one hexadecimal digit. -/
def hexDigitVal (c : Char) : Option Nat :=
  if c.isDigit then some (c.toNat - 48)
  else if 'a' ≤ c ∧ c ≤ 'f' then some (c.toNat - 87)
  else if 'A' ≤ c ∧ c ≤ 'F' then some (c.toNat - 55)
  else none

/-- The character denoted by a single-letter escape. -/
def escapeChar (e : Char) : Option Char :=
  match e with
  | 'n' => some '\n'
  | 't' => some '\t'
  | 'r' => some '\r'
  | 'b' => some (Char.ofNat 8)
  | 'f' => some (Char.ofNat 12)
  | '"' => some '"'
  | '\\' => some '\\'
  | '/' => some '/'
  | _ => none

/-- Body of a JSON string after the opening quote, with an accumulator of the
characters read so far (reversed). JSON forbids raw control characters below
U+0020 inside strings, accepts `\uXXXX` code-unit escapes and the
single-letter escapes of `escapeChar`. -/
def parseJstr (acc : List Char) : List Char → Option (String × List Char)
  | '\\' :: 'u' :: h1 :: h2 :: h3 :: h4 :: rest => do
    let a ← hexDigitVal h1
    let b ← hexDigitVal h2
    let c ← hexDigitVal h3
    let d ← hexDigitVal h4
    parseJstr (Char.ofNat (d + 16 * (c + 16 * (b + 16 * a))) :: acc) rest
  | '\\' :: e :: rest => do
    let ch ← escapeChar e
    parseJstr (ch :: acc) rest
  | '"' :: rest => some (String.mk acc.reverse, rest)
  | c :: rest => if c.toNat ≤ 31 then none else parseJstr (c :: acc) rest
  | [] => none

/-- A JSON number: optional minus sign, integer part without leading zeros,
optional fraction, optional exponent. Exact value as mantissa × 10^exponent. -/
def parseJnum (cs : List Char) : Option (JNum × List Char) := do
  let (neg, cs1) : Bool × List Char :=
    match cs with
    | '-' :: r => (true, r)
    | _ => (false, cs)
  let (ids, cs2) := cs1.span Char.isDigit
  if ids.isEmpty then none
  else if 1 < ids.length ∧ ids.head? = some '0' then none
  else do
    let (fds, cs3) ←
      match cs2 with
      | '.' :: r =>
        let (ds, r2) := r.span Char.isDigit
        if ds.isEmpty then none else some (ds, r2)
      | _ => some (([] : List Char), cs2)
    let (epow, cs4) ←
      match cs3 with
      | 'e' :: r | 'E' :: r =>
        let (sgn, r1) : Int × List Char :=
          match r with
          | '+' :: r2 => (1, r2)
          | '-' :: r2 => (-1, r2)
          | _ => (1, r)
        let (eds, r2) := r1.span Char.isDigit
        if eds.isEmpty then none else some (sgn * (digitsVal eds : Int), r2)
      | _ => some ((0 : Int), cs3)
    let m : Int := (digitsVal (ids ++ fds) : Int)
    some (⟨if neg then -m else m, epow - fds.length⟩, cs4)

mutual

/-- One JSON value starting at `cs` (after optional leading whitespace).
Structural on the fuel, which the top-level entry point sizes generously from
the input length so that well-formed input never exhausts it. -/
def parseJval (fuel : Nat) (cs : List Char) : Option (Jval × List Char) :=
  match fuel with
  | 0 => none
  | fuel + 1 =>
    match skipJsonWs cs with
    | [] => none
    | c :: cs1 =>
      if c = '\x7b' then
        match skipJsonWs cs1 with
        | '\x7d' :: cs2 => some (.jobj [], cs2)
        | cs2 => do
          let (ms, r) ← parseJobjItems fuel cs2
          pure (.jobj ms, r)
      else if c = '[' then
        match skipJsonWs cs1 with
        | ']' :: cs2 => some (.jarr [], cs2)
        | cs2 => do
          let (es, r) ← parseJarrItems fuel cs2
          pure (.jarr es, r)
      else if c = '"' then do
        let (str, r) ← parseJstr [] cs1
        pure (.jstr str, r)
      else if c = 'n' then do
        let r ← stripLit ['u', 'l', 'l'] cs1
        pure (.jnull, r)
      else if c = 't' then do
        let r ← stripLit ['r', 'u', 'e'] cs1
        pure (.jbool true, r)
      else if c = 'f' then do
        let r ← stripLit ['a', 'l', 's', 'e'] cs1
        pure (.jbool false, r)
      else if c = '-' ∨ c.isDigit then do
        let (num, r) ← parseJnum (c :: cs1)
        pure (.jnum num, r)
      else none

/-- One-or-more comma-separated array elements up to the closing bracket. -/
def parseJarrItems (fuel : Nat) (cs : List Char) : Option (List Jval × List Char) :=
  match fuel with
  | 0 => none
  | fuel + 1 => do
    let (v, r) ← parseJval fuel cs
    match skipJsonWs r with
    | ',' :: r2 => do
      let (vs, r3) ← parseJarrItems fuel r2
      pure (v :: vs, r3)
    | ']' :: r2 => pure ([v], r2)
    | _ => none

/-- One-or-more `"key": value` members up to the closing brace. -/
def parseJobjItems (fuel : Nat) (cs : List Char) :
    Option (List (String × Jval) × List Char) :=
  match fuel with
  | 0 => none
  | fuel + 1 =>
    match skipJsonWs cs with
    | '"' :: r => do
      let (key, r1) ← parseJstr [] r
      match skipJsonWs r1 with
      | ':' :: r2 => do
        let (v, r3) ← parseJval fuel r2
        match skipJsonWs r3 with
        | ',' :: r4 => do
          let (ms, r5) ← parseJobjItems fuel r4
          pure ((key, v) :: ms, r5)
        | '\x7d' :: r4 => pure ([(key, v)], r4)
        | _ => none
      | _ => none
    | _ => none

end

/-- Model of the runtime builtin `JSON.parse`: one JSON value followed only by
whitespace, else a thrown `SyntaxError` (`.error`). -/
def jsonParse (s : String) : Except Unit Jval :=
  let cs := s.toList
  match parseJval (4 * cs.length + 8) cs with
  | some (v, rest) => if skipJsonWs rest = [] then .ok v else .error ()
  | none => .error ()

/-! ## The candidate-span search: `content.match(/\{[\s\S]*\}/)`

The pattern matches at the leftmost position holding a `{` that is followed
(anywhere later) by a `}`; the greedy `[\s\S]*` then extends the match to the
last `}` of the whole string. Equivalently: the match, when it exists, runs
from the first `{` of the string to its last `}`. -/

/-- Model of `content.match(/\{[\s\S]*\}/)?.[0]`: the substring from the first
`{` to the last `}`, or `none` when no `}` follows any `{`. -/
def selectSpan (s : String) : Option String :=
  let cs := s.toList
  let fromBrace := cs.dropWhile (· ≠ '{')
  let upToClose := (fromBrace.reverse.dropWhile (· ≠ '}')).reverse
  if upToClose = [] then none else some (String.mk upToClose)

/-! ## The Perplexity client: `PerplexityClient.getMarketSentiment`
(`src/ai/tools/perplexity/perplexity-client.ts`, lines 223–249) -/

/-- The `MarketSentiment` record the Perplexity client builds. `symbol` is the
string the method interpolates; the other fields come from the dynamic parsed
object (so, at runtime, can hold any JavaScript value — the TypeScript
annotations are not enforced on `parsed.…` reads); `citations` is copied from
the response envelope. -/
structure MarketSentiment where
  symbol : String
  sentiment : Jval
  confidence : Jval
  summary : Jval
  key_factors : Jval
  citations : List String
deriving Repr

/-- `const content = response.choices[0]?.message.content || '{}'`: the raw
answer text, with the empty string (and an absent first choice, which this
model folds into the empty string) replaced by `'{}'`. -/
def contentOf (raw : String) : String :=
  if raw = "" then "\x7b\x7d" else raw

/-- The record built on the success path of `getMarketSentiment`'s `try`
block, from the parsed value (each field read with `parsed.f || default`). -/
def perplexitySuccess (symbol : String) (parsed : Jval)
    (respCitations : Option (List String)) : Except Unit MarketSentiment := do
  let sentiment ← jsMember parsed "sentiment"
  let confidence ← jsMember parsed "confidence"
  let summary ← jsMember parsed "summary"
  let key_factors ← jsMember parsed "key_factors"
  pure
    { symbol := symbol
      sentiment := jsOr sentiment (.jstr "neutral")
      confidence := jsOr confidence (.jnum ⟨5, -1⟩)
      summary := jsOr summary (.jstr "")
      key_factors := jsOr key_factors (.jarr [])
      citations := respCitations.getD [] }

/-- The record returned by `getMarketSentiment`'s `catch` block: neutral
defaults plus the first 200 characters of the content as the summary. -/
def perplexityFallback (symbol content : String)
    (respCitations : Option (List String)) : MarketSentiment :=
  { symbol := symbol
    sentiment := .jstr "neutral"
    confidence := .jnum ⟨5, -1⟩
    summary := .jstr (String.mk (content.toList.take 200))
    key_factors := .jarr []
    citations := respCitations.getD [] }

/-- The extraction step of `PerplexityClient.getMarketSentiment`: take the
greedy brace span of the content (or, when there is none, the whole content),
`JSON.parse` it, and build the record field-by-field with `||`-defaults; any
thrown error (parse failure, or member access on a parsed `null`) lands in the
`catch` block's fallback record. -/
def getMarketSentimentExtract (symbol raw : String)
    (respCitations : Option (List String)) : MarketSentiment :=
  let content := contentOf raw
  let toParse := (selectSpan content).getD content
  let attempt : Except Unit MarketSentiment := do
    let parsed ← jsonParse toParse
    perplexitySuccess symbol parsed respCitations
  match attempt with
  | .ok r => r
  | .error _ => perplexityFallback symbol content respCitations

/-! ## The Gemini client: `GeminiClient.analyzeSentiment`
(`src/ai/tools/gemini/gemini-client.ts`, lines 186–253) -/

/-- The `SentimentAnalysis` record the Gemini client builds. Note it carries
*no* citations field — the interface (lines 66–75 of the source) ends at
`key_points` and `timestamp`, and the `GeminiResponse` envelope exposes no
citation list either. `timestamp` is `new Date().toISOString()`, threaded in
here as the `now` argument. -/
structure SentimentAnalysis where
  symbol : String
  sentiment : Jval
  confidence : Jval
  reasoning : Jval
  recommendation : Jval
  risk_level : Jval
  key_points : Jval
  timestamp : String
deriving Repr

/-- The record built on the success path of `analyzeSentiment`'s `try` block. -/
def geminiSuccess (symbol : String) (parsed : Jval) (now : String) :
    Except Unit SentimentAnalysis := do
  let sentiment ← jsMember parsed "sentiment"
  let confidence ← jsMember parsed "confidence"
  let reasoning ← jsMember parsed "reasoning"
  let recommendation ← jsMember parsed "recommendation"
  let risk_level ← jsMember parsed "risk_level"
  let key_points ← jsMember parsed "key_points"
  pure
    { symbol := symbol
      sentiment := jsOr sentiment (.jstr "neutral")
      confidence := jsOr confidence (.jnum ⟨5, -1⟩)
      reasoning := jsOr reasoning (.jstr "")
      recommendation := jsOr recommendation (.jstr "hold")
      risk_level := jsOr risk_level (.jstr "medium")
      key_points := jsOr key_points (.jarr [])
      timestamp := now }

/-- The record returned by `analyzeSentiment`'s `catch` block: defaults plus
the first 300 characters of the content as the reasoning. -/
def geminiFallback (symbol content now : String) : SentimentAnalysis :=
  { symbol := symbol
    sentiment := .jstr "neutral"
    confidence := .jnum ⟨5, -1⟩
    reasoning := .jstr (String.mk (content.toList.take 300))
    recommendation := .jstr "hold"
    risk_level := .jstr "medium"
    key_points := .jarr []
    timestamp := now }

/-- The extraction step of `GeminiClient.analyzeSentiment`: same structure as
the Perplexity one — greedy brace span (else the whole content), `JSON.parse`,
`||`-defaults per field — with the Gemini field set, a 300-character fallback
prefix, and no citations. -/
def analyzeSentimentExtract (symbol raw now : String) : SentimentAnalysis :=
  let content := contentOf raw
  let toParse := (selectSpan content).getD content
  let attempt : Except Unit SentimentAnalysis := do
    let parsed ← jsonParse toParse
    geminiSuccess symbol parsed now
  match attempt with
  | .ok r => r
  | .error _ => geminiFallback symbol content now

/-- The `SentimentAnalysis` record as the JavaScript object the source's
object literal constructs (the exact key set, in construction order) — the
shape `JSON.stringify` serializes and `--output` persists. -/
def sentimentAnalysisToJval (r : SentimentAnalysis) : Jval :=
  .jobj
    [ ("symbol", .jstr r.symbol)
    , ("sentiment", r.sentiment)
    , ("confidence", r.confidence)
    , ("reasoning", r.reasoning)
    , ("recommendation", r.recommendation)
    , ("risk_level", r.risk_level)
    , ("key_points", r.key_points)
    , ("timestamp", .jstr r.timestamp) ]

/-! ## The signal store

`saveToFile` in `src/ai/tools/gemini/gemini-cli.ts` (lines 201–223) and the
inline `--output` handler of the perplexity CLI's `sentiment` command
(`src/unnamed/part_000`, lines 137–158) hold the same logic, modelled here
over the file's current content (`none` = the file does not exist). -/

/-- The sequence of signals read back from the existing file: empty when the
file is absent or its content fails to parse; the parsed array when it parses
to one; otherwise the parsed value wrapped in a one-element array
(`if (!Array.isArray(signals)) signals = [signals]`). -/
def loadedSignals (fileContent : Option String) : List Jval :=
  match fileContent with
  | none => []
  | some existing =>
    match jsonParse existing with
    | .error _ => []
    | .ok (.jarr xs) => xs
    | .ok v => [v]

/-- `saveToFile` of the Gemini CLI: load-or-recover, push the new record,
and hand the whole sequence to one `writeFileSync`. Returns the sequence
written back. -/
def saveToFile (fileContent : Option String) (data : Jval) : List Jval :=
  loadedSignals fileContent ++ [data]

/-- The JSON value `writeFileSync` serializes: always the array of signals. -/
def saveToFileWritten (fileContent : Option String) (data : Jval) : Jval :=
  .jarr (saveToFile fileContent data)

/-- The count the CLI reports: `signals.length` after the push. -/
def saveToFileCount (fileContent : Option String) (data : Jval) : Nat :=
  (saveToFile fileContent data).length

/-- The perplexity CLI's `sentiment --output` handler, byte-for-byte the same
read/recover/wrap/push/write sequence as `saveToFile` (its appended record is
the sentiment result plus a `timestamp` key added by the handler). -/
def sentimentOutputAppend (fileContent : Option String) (signalWithTimestamp : Jval) :
    List Jval :=
  let signals : List Jval :=
    match fileContent with
    | none => []
    | some existing =>
      match jsonParse existing with
      | .error _ => []
      | .ok (.jarr xs) => xs
      | .ok v => [v]
  signals ++ [signalWithTimestamp]

/-! ## Structural lemmas -/

/-- Total member read: the member on objects, `undefined` (`none`) otherwise.
On non-`null` values this is what `jsMember` returns. -/
def memberOf : Jval → String → Option Jval
  | .jobj ms, key => lookupLast ms key
  | _, _ => none

/-- The JSON text the extractor hands to `JSON.parse`: the greedy brace span
when one exists, otherwise the whole content. -/
def selectedText (raw : String) : String :=
  (selectSpan (contentOf raw)).getD (contentOf raw)

/-- Case analysis of the Perplexity extraction: a parse error or a parsed
`null` (whose member access throws) lands in the fallback; any other parsed
value is read field-by-field with `||`-defaults. -/
theorem getMarketSentimentExtract_eq (sym raw : String)
    (cits : Option (List String)) :
    getMarketSentimentExtract sym raw cits =
      match jsonParse (selectedText raw) with
      | .error _ => perplexityFallback sym (contentOf raw) cits
      | .ok .jnull => perplexityFallback sym (contentOf raw) cits
      | .ok parsed =>
        { symbol := sym
          sentiment := jsOr (memberOf parsed "sentiment") (.jstr "neutral")
          confidence := jsOr (memberOf parsed "confidence") (.jnum ⟨5, -1⟩)
          summary := jsOr (memberOf parsed "summary") (.jstr "")
          key_factors := jsOr (memberOf parsed "key_factors") (.jarr [])
          citations := cits.getD [] } := by
  simp only [getMarketSentimentExtract, selectedText]
  cases h : jsonParse ((selectSpan (contentOf raw)).getD (contentOf raw)) with
  | error e => rfl
  | ok parsed => cases parsed <;> rfl

/-- Case analysis of the Gemini extraction, with the same shape. -/
theorem analyzeSentimentExtract_eq (sym raw now : String) :
    analyzeSentimentExtract sym raw now =
      match jsonParse (selectedText raw) with
      | .error _ => geminiFallback sym (contentOf raw) now
      | .ok .jnull => geminiFallback sym (contentOf raw) now
      | .ok parsed =>
        { symbol := sym
          sentiment := jsOr (memberOf parsed "sentiment") (.jstr "neutral")
          confidence := jsOr (memberOf parsed "confidence") (.jnum ⟨5, -1⟩)
          reasoning := jsOr (memberOf parsed "reasoning") (.jstr "")
          recommendation := jsOr (memberOf parsed "recommendation") (.jstr "hold")
          risk_level := jsOr (memberOf parsed "risk_level") (.jstr "medium")
          key_points := jsOr (memberOf parsed "key_points") (.jarr [])
          timestamp := now } := by
  simp only [analyzeSentimentExtract, selectedText]
  cases h : jsonParse ((selectSpan (contentOf raw)).getD (contentOf raw)) with
  | error e => rfl
  | ok parsed => cases parsed <;> rfl

/-! ## Claims about the signal store -/

/-- C6: appending to a signal file currently holding `n` valid entries (a
well-formed JSON array of length `n`) yields exactly `n+1` entries — the first
`n` unchanged in content and order, the new record at the end — and the
reported total count is `n+1`. Holds for both code sites (`saveToFile` of the
Gemini CLI and the perplexity CLI's `sentiment --output` handler). -/
theorem append_preserves_and_extends (content : String) (xs : List Jval) (r : Jval)
    (h : jsonParse content = .ok (.jarr xs)) :
    saveToFile (some content) r = xs ++ [r] ∧
    sentimentOutputAppend (some content) r = xs ++ [r] ∧
    (saveToFile (some content) r).take xs.length = xs ∧
    saveToFileCount (some content) r = xs.length + 1 := by
  have hl : loadedSignals (some content) = xs := by simp [loadedSignals, h]
  refine ⟨?_, ?_, ?_, ?_⟩
  · simp [saveToFile, hl]
  · simp [sentimentOutputAppend, h]
  · simp [saveToFile, hl, List.take_left]
  · simp [saveToFileCount, saveToFile, hl]

/-- Witness for C6 at a one-entry file. -/
theorem append_preserves_and_extends_witness :
    saveToFile (some "[\x7b\"a\":1\x7d]") (.jstr "new") = [.jobj [("a", jint 1)], .jstr "new"] ∧
    saveToFileCount (some "[\x7b\"a\":1\x7d]") (.jstr "new") = 2 := by
  have h := append_preserves_and_extends "[\x7b\"a\":1\x7d]" [.jobj [("a", jint 1)]]
    (.jstr "new") rfl
  exact ⟨h.1, h.2.2.2⟩

/-- C7: appending to a signal file whose content does not parse as JSON still
succeeds, discards the unparseable content, and yields exactly the one new
entry (destructive recovery), at both code sites. -/
theorem append_recovers_from_corrupt (content : String) (r : Jval)
    (h : jsonParse content = .error ()) :
    saveToFile (some content) r = [r] ∧
    sentimentOutputAppend (some content) r = [r] ∧
    saveToFileCount (some content) r = 1 := by
  have hl : loadedSignals (some content) = [] := by simp [loadedSignals, h]
  refine ⟨by simp [saveToFile, hl], by simp [sentimentOutputAppend, h],
    by simp [saveToFileCount, saveToFile, hl]⟩

/-- Witness for C7 at the spec's own example content. -/
theorem append_recovers_from_corrupt_witness :
    saveToFile (some "not json") (.jstr "new") = [.jstr "new"] := by
  exact (append_recovers_from_corrupt "not json" (.jstr "new") rfl).1

/-- C8: a signal file holding a single JSON object (not an array) is wrapped
into a one-element array before the append, so the result is the two-element
array `[oldObject, newRecord]`; and after any successful append the written
top-level value is an array, never a bare object. -/
theorem append_wraps_legacy_object (content : String) (ms : List (String × Jval))
    (r : Jval) (h : jsonParse content = .ok (.jobj ms)) :
    saveToFile (some content) r = [.jobj ms, r] ∧
    sentimentOutputAppend (some content) r = [.jobj ms, r] ∧
    (∀ fileContent data, ∃ ys, saveToFileWritten fileContent data = .jarr ys) := by
  have hl : loadedSignals (some content) = [.jobj ms] := by simp [loadedSignals, h]
  refine ⟨by simp [saveToFile, hl], by simp [sentimentOutputAppend, h],
    fun fileContent data => ⟨saveToFile fileContent data, rfl⟩⟩

/-- Witness for C8 at a legacy single-object file. -/
theorem append_wraps_legacy_object_witness :
    saveToFile (some "\x7b\"a\":1\x7d") (.jstr "new") = [.jobj [("a", jint 1)], .jstr "new"] := by
  exact (append_wraps_legacy_object "\x7b\"a\":1\x7d" [("a", jint 1)] (.jstr "new") rfl).1

/-! ## Claims about the extractors -/

/-- The value `v` held by a result field is either the field's documented
default or the (truthy) value read off the successfully parsed object. -/
def fieldFromParseOrDefault (raw key : String) (dflt v : Jval) : Prop :=
  v = dflt ∨
    ∃ ms, jsonParse (selectedText raw) = .ok (.jobj ms) ∧ lookupLast ms key = some v

/-- Every field of a `MarketSentiment` result is populated: symbol and
citations from the call's own inputs, each remaining field a parsed value or
its documented default — where the free-text field's documented fallback value
is the 200-character prefix of the content. -/
def marketSentimentPopulated (sym raw : String) (cits : Option (List String))
    (r : MarketSentiment) : Prop :=
  r.symbol = sym ∧
  fieldFromParseOrDefault raw "sentiment" (.jstr "neutral") r.sentiment ∧
  fieldFromParseOrDefault raw "confidence" (.jnum ⟨5, -1⟩) r.confidence ∧
  (fieldFromParseOrDefault raw "summary" (.jstr "") r.summary ∨
    r.summary = .jstr (String.mk ((contentOf raw).toList.take 200))) ∧
  fieldFromParseOrDefault raw "key_factors" (.jarr []) r.key_factors ∧
  r.citations = cits.getD []

/-- Every field of a `SentimentAnalysis` result is populated, with the
300-character prefix as the free-text field's documented fallback value. -/
def sentimentAnalysisPopulated (sym raw now : String) (r : SentimentAnalysis) : Prop :=
  r.symbol = sym ∧
  fieldFromParseOrDefault raw "sentiment" (.jstr "neutral") r.sentiment ∧
  fieldFromParseOrDefault raw "confidence" (.jnum ⟨5, -1⟩) r.confidence ∧
  (fieldFromParseOrDefault raw "reasoning" (.jstr "") r.reasoning ∨
    r.reasoning = .jstr (String.mk ((contentOf raw).toList.take 300))) ∧
  fieldFromParseOrDefault raw "recommendation" (.jstr "hold") r.recommendation ∧
  fieldFromParseOrDefault raw "risk_level" (.jstr "medium") r.risk_level ∧
  fieldFromParseOrDefault raw "key_points" (.jarr []) r.key_points ∧
  r.timestamp = now

/-- A `parsed.key || default` read always lands in `fieldFromParseOrDefault`. -/
theorem fieldFromParseOrDefault_jsOr (raw key : String) (dflt : Jval) (parsed : Jval)
    (h : jsonParse (selectedText raw) = .ok parsed) :
    fieldFromParseOrDefault raw key dflt (jsOr (memberOf parsed key) dflt) := by
  cases hp : memberOf parsed key with
  | none => exact .inl rfl
  | some v =>
    have hobj : ∃ ms, parsed = Jval.jobj ms ∧ lookupLast ms key = some v := by
      cases parsed <;> simp [memberOf] at hp ⊢
      exact hp
    obtain ⟨ms, hms, hl⟩ := hobj
    by_cases ht : jtruthy v
    · refine .inr ⟨ms, hms ▸ h, ?_⟩
      simpa [jsOr, ht] using hl
    · left
      simp [jsOr, ht]

/-- The Perplexity fallback record is populated. -/
theorem marketFallbackPopulated (sym raw : String) (cits : Option (List String)) :
    marketSentimentPopulated sym raw cits (perplexityFallback sym (contentOf raw) cits) :=
  ⟨rfl, .inl rfl, .inl rfl, .inr rfl, .inl rfl, rfl⟩

/-- The Gemini fallback record is populated. -/
theorem geminiFallbackPopulated (sym raw now : String) :
    sentimentAnalysisPopulated sym raw now (geminiFallback sym (contentOf raw) now) :=
  ⟨rfl, .inl rfl, .inl rfl, .inr rfl, .inl rfl, .inl rfl, .inl rfl, rfl⟩

/-- C1: the structured-result extraction is a total function of the raw answer
text — for every input (empty, non-JSON, multiply-braced, malformed included)
it returns a record (both clients' extraction functions are total Lean
functions over `String`, with both JavaScript throw points — `JSON.parse` and
member access on `null` — modelled and caught), and every field of the result
is a parsed value or its documented default, never absent. -/
theorem extraction_total_and_populated (sym raw now : String)
    (cits : Option (List String)) :
    marketSentimentPopulated sym raw cits (getMarketSentimentExtract sym raw cits) ∧
    sentimentAnalysisPopulated sym raw now (analyzeSentimentExtract sym raw now) := by
  rw [getMarketSentimentExtract_eq, analyzeSentimentExtract_eq]
  cases h : jsonParse (selectedText raw) with
  | error e =>
    exact ⟨marketFallbackPopulated sym raw cits, geminiFallbackPopulated sym raw now⟩
  | ok parsed =>
    cases parsed
    case jnull =>
      exact ⟨marketFallbackPopulated sym raw cits, geminiFallbackPopulated sym raw now⟩
    all_goals
      exact
        ⟨⟨rfl, fieldFromParseOrDefault_jsOr raw "sentiment" _ _ h,
          fieldFromParseOrDefault_jsOr raw "confidence" _ _ h,
          Or.inl (fieldFromParseOrDefault_jsOr raw "summary" _ _ h),
          fieldFromParseOrDefault_jsOr raw "key_factors" _ _ h, rfl⟩,
        ⟨rfl, fieldFromParseOrDefault_jsOr raw "sentiment" _ _ h,
          fieldFromParseOrDefault_jsOr raw "confidence" _ _ h,
          Or.inl (fieldFromParseOrDefault_jsOr raw "reasoning" _ _ h),
          fieldFromParseOrDefault_jsOr raw "recommendation" _ _ h,
          fieldFromParseOrDefault_jsOr raw "risk_level" _ _ h,
          fieldFromParseOrDefault_jsOr raw "key_points" _ _ h, rfl⟩⟩

/-- C10: default substitution is triggered by JavaScript falsiness, not by
absence or wrong shape — a `confidence` explicitly present as the number `0`
(mantissa zero, so also `0.0` or `-0`) comes out as `0.5`, and any falsy
`sentiment` value (`false`, `null`, `""`) comes out as `"neutral"`, in both
clients' records. -/
theorem falsy_fields_replaced_by_defaults (sym raw now : String)
    (cits : Option (List String)) (ms : List (String × Jval))
    (h : jsonParse (selectedText raw) = .ok (.jobj ms)) :
    (∀ n : JNum, n.mantissa = 0 → lookupLast ms "confidence" = some (.jnum n) →
      (getMarketSentimentExtract sym raw cits).confidence = .jnum ⟨5, -1⟩ ∧
      (analyzeSentimentExtract sym raw now).confidence = .jnum ⟨5, -1⟩) ∧
    (∀ v, lookupLast ms "sentiment" = some v → jtruthy v = false →
      (getMarketSentimentExtract sym raw cits).sentiment = .jstr "neutral" ∧
      (analyzeSentimentExtract sym raw now).sentiment = .jstr "neutral") := by
  simp only [getMarketSentimentExtract_eq, analyzeSentimentExtract_eq, h]
  constructor
  · intro n hn hc
    constructor <;> simp [memberOf, hc, jsOr, jtruthy, hn]
  · intro v hv ht
    constructor <;> simp [memberOf, hv, jsOr, ht]

/-- Witness for C10: an explicit `"confidence": 0` and an explicit empty-string
`"sentiment"` are both replaced by their defaults. -/
theorem falsy_fields_replaced_by_defaults_witness :
    (getMarketSentimentExtract "BTC" "\x7b\"confidence\":0,\"sentiment\":\"\"\x7d" none).confidence
        = .jnum ⟨5, -1⟩ ∧
    (analyzeSentimentExtract "BTC" "\x7b\"confidence\":0,\"sentiment\":\"\"\x7d" "T0").sentiment
        = .jstr "neutral" := by
  have h := falsy_fields_replaced_by_defaults "BTC" "\x7b\"confidence\":0,\"sentiment\":\"\"\x7d"
    "T0" none [("confidence", jint 0), ("sentiment", .jstr "")] rfl
  exact ⟨(h.1 ⟨0, 0⟩ rfl rfl).1, (h.2 (.jstr "") rfl rfl).2⟩

/-- C3 counterexample: a field present with the wrong shape — `"sentiment": 42`,
a number where the schema expects an enum string — is passed through unchanged
rather than replaced by its documented default `"neutral"`, in both clients;
the claim's "absent **or of the wrong shape** … replaced by its documented
default" is false of the code. -/
theorem wrong_shape_field_passes_through :
    (getMarketSentimentExtract "BTC" "\x7b\"sentiment\":42\x7d" none).sentiment = jint 42 ∧
    (analyzeSentimentExtract "BTC" "\x7b\"sentiment\":42\x7d" "T0").sentiment = jint 42 ∧
    jint 42 ≠ Jval.jstr "neutral" := by
  refine ⟨rfl, rfl, fun hcontra => Jval.noConfusion hcontra⟩

/-- C3 as amended: when the extracted JSON parses to an object, each expected
field that is *absent* is replaced by its documented default (`0.5`,
`neutral`, `hold`, `medium`, empty array, empty string), and each field
present with a *truthy* value is taken from the parsed object unchanged,
whatever its shape. (The original claim's wrong-shape clause is refuted by
`wrong_shape_field_passes_through`; substituted values are decided by
falsiness alone.) -/
theorem defaults_substituted_for_missing_fields (sym raw now : String)
    (cits : Option (List String)) (ms : List (String × Jval))
    (h : jsonParse (selectedText raw) = .ok (.jobj ms)) :
    (lookupLast ms "sentiment" = none →
      (getMarketSentimentExtract sym raw cits).sentiment = .jstr "neutral" ∧
      (analyzeSentimentExtract sym raw now).sentiment = .jstr "neutral") ∧
    (lookupLast ms "confidence" = none →
      (getMarketSentimentExtract sym raw cits).confidence = .jnum ⟨5, -1⟩ ∧
      (analyzeSentimentExtract sym raw now).confidence = .jnum ⟨5, -1⟩) ∧
    (lookupLast ms "summary" = none →
      (getMarketSentimentExtract sym raw cits).summary = .jstr "") ∧
    (lookupLast ms "key_factors" = none →
      (getMarketSentimentExtract sym raw cits).key_factors = .jarr []) ∧
    (lookupLast ms "reasoning" = none →
      (analyzeSentimentExtract sym raw now).reasoning = .jstr "") ∧
    (lookupLast ms "recommendation" = none →
      (analyzeSentimentExtract sym raw now).recommendation = .jstr "hold") ∧
    (lookupLast ms "risk_level" = none →
      (analyzeSentimentExtract sym raw now).risk_level = .jstr "medium") ∧
    (lookupLast ms "key_points" = none →
      (analyzeSentimentExtract sym raw now).key_points = .jarr []) ∧
    (∀ v, lookupLast ms "sentiment" = some v → jtruthy v = true →
      (getMarketSentimentExtract sym raw cits).sentiment = v ∧
      (analyzeSentimentExtract sym raw now).sentiment = v) := by
  simp only [getMarketSentimentExtract_eq, analyzeSentimentExtract_eq, h]
  refine ⟨?_, ?_, ?_, ?_, ?_, ?_, ?_, ?_, ?_⟩
  all_goals first
  | · intro hl
      constructor <;> simp [memberOf, hl, jsOr]
  | · intro hl
      simp [memberOf, hl, jsOr]
  | · intro v hl ht
      constructor <;> simp [memberOf, hl, jsOr, ht]

/-- Witness for C3 at an object carrying none of the expected fields. -/
theorem defaults_substituted_for_missing_fields_witness :
    (getMarketSentimentExtract "BTC" "\x7b\"note\":1\x7d" none).confidence = .jnum ⟨5, -1⟩ ∧
    (analyzeSentimentExtract "BTC" "\x7b\"note\":1\x7d" "T0").recommendation = .jstr "hold" ∧
    (analyzeSentimentExtract "BTC" "\x7b\"note\":1\x7d" "T0").risk_level = .jstr "medium" := by
  have h := defaults_substituted_for_missing_fields "BTC" "\x7b\"note\":1\x7d" "T0" none
    [("note", jint 1)] rfl
  exact ⟨(h.2.1 rfl).1, h.2.2.2.2.2.1 rfl, h.2.2.2.2.2.2.1 rfl⟩

/-- Simplified result of `PerplexityClient.search`
(`src/ai/tools/perplexity/perplexity-client.ts`, lines 143–156). -/
structure ResearchResult where
  query : String
  answer : String
  citations : List String
  model : String
  tokens_used : Int
deriving Repr

/-- The record `search` builds off the response envelope:
`answer: choices[0]?.message.content || ''`, `citations: response.citations
|| []`, model and token usage copied through. -/
def searchResultBuild (query : String) (answer : Option String)
    (citations : Option (List String)) (model : String) (tokens : Int) :
    ResearchResult :=
  { query := query
    answer := answer.getD ""
    citations := citations.getD []
    model := model
    tokens_used := tokens }

/-- C9 counterexample: the Gemini sentiment record carries no `citations`
member at all — not even an empty one taken from the envelope — although the
parsed answer JSON itself supplies a `citations` field. -/
theorem gemini_record_has_no_citations_field :
    jsonParse "\x7b\"citations\":[\"https://x\"]\x7d"
        = .ok (.jobj [("citations", .jarr [.jstr "https://x"])]) ∧
    memberOf (sentimentAnalysisToJval
        (analyzeSentimentExtract "BTC" "\x7b\"citations\":[\"https://x\"]\x7d" "T0"))
      "citations" = none := by
  exact ⟨rfl, rfl⟩

/-- C9 as amended: the two Perplexity records take their citations from the
response envelope (defaulting to the empty sequence) and never from the
parsed answer JSON — the result's citations do not depend on the raw text at
all — while the Gemini sentiment record has no citations member whatsoever
(its response envelope exposes none to copy). -/
theorem citations_come_from_envelope_only (sym raw now q mdl : String)
    (cits : Option (List String)) (ans : Option String) (tok : Int) :
    (getMarketSentimentExtract sym raw cits).citations = cits.getD [] ∧
    (searchResultBuild q ans cits mdl tok).citations = cits.getD [] ∧
    memberOf (sentimentAnalysisToJval (analyzeSentimentExtract sym raw now))
      "citations" = none := by
  refine ⟨?_, rfl, rfl⟩
  rw [getMarketSentimentExtract_eq]
  cases h : jsonParse (selectedText raw) with
  | error e => rfl
  | ok parsed => cases parsed <;> rfl

/-- The first element surviving `dropWhile p` fails `p`. -/
theorem dropWhile_head_not (p : Char → Bool) :
    ∀ (l : List Char) (x : Char) (xs : List Char),
      l.dropWhile p = x :: xs → p x = false := by
  intro l
  induction l with
  | nil => intro x xs h; simp [List.dropWhile] at h
  | cons a as ih =>
    intro x xs h
    rw [List.dropWhile_cons] at h
    split at h
    · exact ih x xs h
    · rename_i hp
      cases h
      simpa using hp

/-- Decomposition defining the greedy regex span: dropping the `{`-free prefix
and then, from the right, the `}`-free suffix leaves the segment from the
first `{` to the last `}`. -/
theorem span_decomp (cs : List Char) (mid : List Char)
    (hmid : mid = ((cs.dropWhile (· ≠ '{')).reverse.dropWhile (· ≠ '}')).reverse)
    (hne : mid ≠ []) :
    ∃ pre suf, cs = pre ++ mid ++ suf ∧
      (∀ c ∈ pre, c ≠ '{') ∧ (∀ c ∈ suf, c ≠ '}') ∧
      mid.head? = some '{' ∧ mid.getLast? = some '}' := by
  set pre := cs.takeWhile (· ≠ '{') with hpredef
  set rest := cs.dropWhile (· ≠ '{') with hrestdef
  set sufRev := rest.reverse.takeWhile (· ≠ '}') with hsufdef
  set midRev := rest.reverse.dropWhile (· ≠ '}') with hmiddef
  have hsplit : cs = pre ++ rest := (List.takeWhile_append_dropWhile _ _).symm
  have hrev : rest.reverse = sufRev ++ midRev :=
    (List.takeWhile_append_dropWhile _ _).symm
  have hrest : rest = mid ++ sufRev.reverse := by
    calc rest = rest.reverse.reverse := (List.reverse_reverse _).symm
    _ = (sufRev ++ midRev).reverse := by rw [← hrev]
    _ = midRev.reverse ++ sufRev.reverse := List.reverse_append _ _
    _ = mid ++ sufRev.reverse := by rw [← hmid]
  refine ⟨pre, sufRev.reverse, ?_, ?_, ?_, ?_, ?_⟩
  · rw [hsplit, hrest, List.append_assoc]
  · intro c hc
    simpa using List.mem_takeWhile_imp hc
  · intro c hc
    have hc2 : c ∈ sufRev := by simpa using hc
    simpa using List.mem_takeWhile_imp hc2
  · obtain ⟨x, xs, hx⟩ := List.exists_cons_of_ne_nil hne
    have hcons : rest = x :: (xs ++ sufRev.reverse) := by
      rw [hrest, hx]; rfl
    have hx2 : x = '{' := by
      simpa using dropWhile_head_not (· ≠ '{') cs x _ (hrestdef ▸ hcons)
    rw [hx, hx2]; rfl
  · have hmidrev : mid.getLast? = midRev.head? := by
      rw [hmid]
      exact List.getLast?_reverse _
    have hne2 : midRev ≠ [] := by
      intro hc
      apply hne
      rw [hmid, hc]
      rfl
    obtain ⟨y, ys, hy⟩ := List.exists_cons_of_ne_nil hne2
    have hy2 : y = '}' := by
      simpa using dropWhile_head_not (· ≠ '}') rest.reverse y ys (hmiddef ▸ hy)
    rw [hmidrev, hy, hy2]
    rfl

/-- C4 as amended: (i) when the span search succeeds, the selected candidate
is exactly the substring from the first `{` of the whole text to its last `}`
(greedy span, not balanced braces): the text splits as a brace-free prefix,
the span (starting `{`, ending `}`), and a `}`-free suffix; (ii) a found span
is what gets parsed; (iii) when no span exists the extractor hands the *whole*
content to `JSON.parse` — so it falls back to the degraded record only when
that parse fails, not always (refuted by `no_span_need_not_fall_back`); and
(iv) code-fence markers are ignored, only brace boundaries matter. -/
theorem greedy_span_selection :
    (∀ s t : String, selectSpan s = some t →
      ∃ pre suf : List Char, s.toList = pre ++ t.toList ++ suf ∧
        (∀ c ∈ pre, c ≠ '{') ∧ (∀ c ∈ suf, c ≠ '}') ∧
        t.toList.head? = some '{' ∧ t.toList.getLast? = some '}') ∧
    (∀ raw t : String, selectSpan (contentOf raw) = some t →
      selectedText raw = t) ∧
    (∀ raw : String, selectSpan (contentOf raw) = none →
      selectedText raw = contentOf raw) ∧
    (getMarketSentimentExtract "BTC"
      "```json\n\x7b\"sentiment\":\"bullish\",\"confidence\":0.8\x7d\n```" none).sentiment
      = .jstr "bullish" := by
  refine ⟨?_, ?_, ?_, rfl⟩
  · intro s t h
    simp only [selectSpan] at h
    by_cases hz :
        ((s.toList.dropWhile (· ≠ '{')).reverse.dropWhile (· ≠ '}')).reverse
          = ([] : List Char)
    · rw [if_pos hz] at h
      exact absurd h (by simp)
    · rw [if_neg hz] at h
      have ht : t = String.mk
          (((s.toList.dropWhile (· ≠ '{')).reverse.dropWhile (· ≠ '}')).reverse) := by
        injection h with h2
        exact h2.symm
      obtain ⟨pre, suf, h1, h2, h3, h4, h5⟩ := span_decomp s.toList _ rfl hz
      exact ⟨pre, suf, by rw [ht]; exact h1, h2, h3, by rw [ht]; exact h4,
        by rw [ht]; exact h5⟩
  · intro raw t h
    simp [selectedText, h]
  · intro raw h
    simp [selectedText, h]

/-- Witness for C4: the no-span case on a plain sentence, and the span
decomposition on a text with two brace groups amid prose (the span runs from
the first `{` to the last `}`, across both groups). -/
theorem greedy_span_selection_witness :
    selectedText "I think BTC looks okay." = contentOf "I think BTC looks okay." ∧
    (∃ pre suf : List Char, "x\x7b1\x7d \x7b2\x7dy".toList = pre ++ "\x7b1\x7d \x7b2\x7d".toList ++ suf ∧
      (∀ c ∈ pre, c ≠ '{') ∧ (∀ c ∈ suf, c ≠ '}') ∧
      "\x7b1\x7d \x7b2\x7d".toList.head? = some '{' ∧ "\x7b1\x7d \x7b2\x7d".toList.getLast? = some '}') ∧
    selectedText "x\x7b1\x7d \x7b2\x7dy" = "\x7b1\x7d \x7b2\x7d" :=
  ⟨greedy_span_selection.2.2.1 "I think BTC looks okay." rfl,
   greedy_span_selection.1 "x\x7b1\x7d \x7b2\x7dy" "\x7b1\x7d \x7b2\x7d" rfl,
   greedy_span_selection.2.1 "x\x7b1\x7d \x7b2\x7dy" "\x7b1\x7d \x7b2\x7d" rfl⟩

/-- C4 counterexample: on the brace-free text `5` no span exists, yet the
extractor does *not* return the degraded record — the whole text parses as
JSON (the number 5), so the success path runs and the summary is the empty
string, where the degraded record would carry the text `5` itself. -/
theorem no_span_need_not_fall_back :
    selectSpan "5" = none ∧
    (getMarketSentimentExtract "B" "5" none).summary = .jstr "" ∧
    (perplexityFallback "B" "5" none).summary = .jstr "5" ∧
    Jval.jstr "" ≠ Jval.jstr "5" := by
  refine ⟨rfl, rfl, rfl, fun h => ?_⟩
  have h2 := Jval.jstr.inj h
  exact absurd h2 (by decide)

/-- C2 counterexample: on a text holding a bullish JSON object followed by a
bearish one, the extractor does not return the first object's values — the
greedy span covers both objects, fails to parse, and the fallback's `neutral`
comes out, in both clients. -/
theorem two_objects_do_not_yield_first :
    (getMarketSentimentExtract "BTC"
      "\x7b\"sentiment\":\"bullish\",\"confidence\":0.9\x7d \x7b\"sentiment\":\"bearish\",\"confidence\":0.2\x7d"
      none).sentiment = .jstr "neutral" ∧
    (analyzeSentimentExtract "BTC"
      "\x7b\"sentiment\":\"bullish\",\"confidence\":0.9\x7d \x7b\"sentiment\":\"bearish\",\"confidence\":0.2\x7d"
      "T0").sentiment = .jstr "neutral" ∧
    Jval.jstr "neutral" ≠ Jval.jstr "bullish" := by
  refine ⟨rfl, rfl, fun h => ?_⟩
  have h2 := Jval.jstr.inj h
  exact absurd h2 (by decide)

/-- C2 as amended: on raw text made of two JSON objects in sequence, the
greedy span runs from the first object's `{` to the second object's `}`, that
span fails `JSON.parse`, and both extractors return their fallback record
(neutral defaults plus the truncated raw text) — neither the first nor the
second object's values are extracted. -/
theorem two_objects_yield_fallback (sym now : String) (cits : Option (List String)) :
    selectSpan
        "\x7b\"sentiment\":\"bullish\",\"confidence\":0.9\x7d \x7b\"sentiment\":\"bearish\",\"confidence\":0.2\x7d"
      = some
        "\x7b\"sentiment\":\"bullish\",\"confidence\":0.9\x7d \x7b\"sentiment\":\"bearish\",\"confidence\":0.2\x7d" ∧
    jsonParse
        "\x7b\"sentiment\":\"bullish\",\"confidence\":0.9\x7d \x7b\"sentiment\":\"bearish\",\"confidence\":0.2\x7d"
      = .error () ∧
    getMarketSentimentExtract sym
        "\x7b\"sentiment\":\"bullish\",\"confidence\":0.9\x7d \x7b\"sentiment\":\"bearish\",\"confidence\":0.2\x7d"
        cits
      = perplexityFallback sym
          "\x7b\"sentiment\":\"bullish\",\"confidence\":0.9\x7d \x7b\"sentiment\":\"bearish\",\"confidence\":0.2\x7d"
          cits ∧
    analyzeSentimentExtract sym
        "\x7b\"sentiment\":\"bullish\",\"confidence\":0.9\x7d \x7b\"sentiment\":\"bearish\",\"confidence\":0.2\x7d"
        now
      = geminiFallback sym
          "\x7b\"sentiment\":\"bullish\",\"confidence\":0.9\x7d \x7b\"sentiment\":\"bearish\",\"confidence\":0.2\x7d"
          now := by
  refine ⟨rfl, rfl, ?_, ?_⟩
  · rw [getMarketSentimentExtract_eq]
    rw [show jsonParse (selectedText
        "\x7b\"sentiment\":\"bullish\",\"confidence\":0.9\x7d \x7b\"sentiment\":\"bearish\",\"confidence\":0.2\x7d")
      = Except.error () from rfl]
    rfl
  · rw [analyzeSentimentExtract_eq]
    rw [show jsonParse (selectedText
        "\x7b\"sentiment\":\"bullish\",\"confidence\":0.9\x7d \x7b\"sentiment\":\"bearish\",\"confidence\":0.2\x7d")
      = Except.error () from rfl]
    rfl

/-- C5 counterexample: `true` contains no JSON span, yet the extractor does
not put the truncated raw text into the free-text field — the whole text
parses as the JSON boolean, the success path runs, and the free-text field
comes out as the empty string instead of the claimed verbatim `true`. -/
theorem no_span_freetext_not_raw_prefix :
    selectSpan "true" = none ∧
    (analyzeSentimentExtract "B" "true" "T0").reasoning = .jstr "" ∧
    (geminiFallback "B" "true" "T0").reasoning = .jstr "true" ∧
    (getMarketSentimentExtract "B" "true" none).summary = .jstr "" ∧
    Jval.jstr "" ≠ Jval.jstr "true" := by
  refine ⟨rfl, rfl, rfl, rfl, fun h => ?_⟩
  have h2 := Jval.jstr.inj h
  exact absurd h2 (by decide)

/-- C5 as amended: on the fallback path — taken exactly when `JSON.parse` of
the selected text (the greedy span, or the whole content when no span exists)
throws, or parses to `null` (whose member access throws) — both extractors
return the record of pure defaults (neutral, 0.5, hold, medium, empty
sequence) with the free-text field set to the truncated raw-text prefix, 200
characters for the Perplexity record and 300 for the Gemini one; a non-JSON
sentence shorter than the limit is carried over verbatim. -/
theorem fallback_record_shape (sym raw now : String) (cits : Option (List String))
    (h : jsonParse (selectedText raw) = .error () ∨
      jsonParse (selectedText raw) = .ok .jnull) :
    getMarketSentimentExtract sym raw cits = perplexityFallback sym (contentOf raw) cits ∧
    analyzeSentimentExtract sym raw now = geminiFallback sym (contentOf raw) now ∧
    (perplexityFallback sym (contentOf raw) cits).summary
      = .jstr (String.mk ((contentOf raw).toList.take 200)) ∧
    (geminiFallback sym (contentOf raw) now).reasoning
      = .jstr (String.mk ((contentOf raw).toList.take 300)) ∧
    (getMarketSentimentExtract "BTC" "I think BTC looks okay." none).summary
      = .jstr "I think BTC looks okay." := by
  rw [getMarketSentimentExtract_eq, analyzeSentimentExtract_eq]
  rcases h with h | h <;> rw [h] <;> exact ⟨rfl, rfl, rfl, rfl, rfl⟩

/-- Witness for C5 at the spec's own malformed-output scenario. -/
theorem fallback_record_shape_witness :
    getMarketSentimentExtract "BTC" "I think BTC looks okay." none
      = perplexityFallback "BTC" (contentOf "I think BTC looks okay.") none ∧
    analyzeSentimentExtract "BTC" "I think BTC looks okay." "T0"
      = geminiFallback "BTC" (contentOf "I think BTC looks okay.") "T0" := by
  have h := fallback_record_shape "BTC" "I think BTC looks okay." "T0" none (Or.inl rfl)
  exact ⟨h.1, h.2.1⟩
